import Mathlib

/-!
Verification of the cwc compositor core against its specification.

The definitions below are shallow embeddings of the C sources:
  * the container state bitfield and the state-mutating operations of
    `src/layout/container.c`,
  * the container geometry operations (`set_size`, `set_position`,
    `set_fullscreen`, `restore_floating_box`, ...),
  * the BSP tree operations of `bsp.c`,
  * the master/stack `tile` strategy and the arrange-pass collection loop,
  * the keybinding map of `src/input/keybinding.c` and keyboard dispatch of
    `src/input/cursor.c`,
  * the resize-edge inference of `src/input/cursor.c`.

Machine integers are modelled as `Int` (the values involved stay far away
from 32-bit overflow), C `double` values as `ℚ` (all concrete constants in
play are exactly representable, and every claim settled here is robust to
the sub-`1e-15` rounding of the non-representable threshold constants), and
the C `(int)` conversion of a `double` as truncation toward zero.
-/

namespace Cwc

/-! ## Container state bitfield (include/cwc/layout/container.h) -/

def CONTAINER_STATE_UNMANAGED : Nat := 1
def CONTAINER_STATE_FLOATING : Nat := 2
def CONTAINER_STATE_MINIMIZED : Nat := 4
def CONTAINER_STATE_MAXIMIZED : Nat := 8
def CONTAINER_STATE_FULLSCREEN : Nat := 16
def CONTAINER_STATE_STICKY : Nat := 32

/-- `state & mask` tested as a boolean, as the C predicates do. -/
def stateHas (s mask : Nat) : Bool := s &&& mask != 0

/-- `state |= mask`. -/
def stateSet (s mask : Nat) : Nat := s ||| mask

/-- `state &= ~mask`; the field is 6 bits wide so `~mask` is `63 ^^^ mask`. -/
def stateClear (s mask : Nat) : Nat := s &&& (63 ^^^ mask)

/-- `cwc_container_is_fullscreen`. -/
def cwc_container_is_fullscreen (s : Nat) : Bool :=
  stateHas s CONTAINER_STATE_FULLSCREEN

/-- `cwc_container_is_maximized`. -/
def cwc_container_is_maximized (s : Nat) : Bool :=
  stateHas s CONTAINER_STATE_MAXIMIZED

/-- `cwc_container_is_configure_allowed`. -/
def cwc_container_is_configure_allowed (s : Nat) : Bool :=
  !cwc_container_is_fullscreen s && !cwc_container_is_maximized s

/-- `cwc_container_is_floating`: the FLOATING bit or a floating layout mode. -/
def cwc_container_is_floating (layoutFloating : Bool) (s : Nat) : Bool :=
  stateHas s CONTAINER_STATE_FLOATING || layoutFloating

/-- State-field effect of `cwc_container_set_fullscreen` (container.c:907). -/
def set_fullscreen_state (s : Nat) (set : Bool) : Nat :=
  if set then stateClear (stateSet s CONTAINER_STATE_FULLSCREEN) CONTAINER_STATE_MAXIMIZED
  else stateClear s CONTAINER_STATE_FULLSCREEN

/-- State-field effect of `cwc_container_set_maximized` (container.c:954). -/
def set_maximized_state (s : Nat) (set : Bool) : Nat :=
  if set then stateClear (stateSet s CONTAINER_STATE_MAXIMIZED) CONTAINER_STATE_FULLSCREEN
  else stateClear s CONTAINER_STATE_MAXIMIZED

/-- State-field effect of `cwc_container_set_minimized` (container.c:990). -/
def set_minimized_state (s : Nat) (set : Bool) : Nat :=
  if set then stateSet s CONTAINER_STATE_MINIMIZED
  else stateClear s CONTAINER_STATE_MINIMIZED

/-- State-field effect of `cwc_container_set_floating` (container.c:852):
guarded by `cwc_container_is_configure_allowed`. -/
def set_floating_state (layoutFloating : Bool) (s : Nat) (set : Bool) : Nat :=
  if !cwc_container_is_configure_allowed s then s
  else if set then stateSet s CONTAINER_STATE_FLOATING
  else if cwc_container_is_floating layoutFloating s then
    stateClear s CONTAINER_STATE_FLOATING
  else s

/-- State-field effect of `cwc_container_set_sticky` (container.c:880). -/
def set_sticky_state (s : Nat) (set : Bool) : Nat :=
  if set then stateSet s CONTAINER_STATE_STICKY
  else stateClear s CONTAINER_STATE_STICKY

/-- Every state-bitfield write in the sources, as one operation type:
the five public setters, the `state &= ~FLOATING` in `decide_should_tiled`
(container.c:463) and `bsp_insert_container` (bsp.c), and the
`state |= UNMANAGED` of `cwc_container_init` (container.c:516). -/
inductive ContOp where
  | fullscreen (set : Bool)
  | maximized (set : Bool)
  | minimized (set : Bool)
  | floating (layoutFloating set : Bool)
  | sticky (set : Bool)
  | clearFloatingForTiled
  | markUnmanaged
deriving DecidableEq

/-- Apply one state-bitfield write. -/
def contStep (op : ContOp) (s : Nat) : Nat :=
  match op with
  | .fullscreen set => set_fullscreen_state s set
  | .maximized set => set_maximized_state s set
  | .minimized set => set_minimized_state s set
  | .floating lf set => set_floating_state lf s set
  | .sticky set => set_sticky_state s set
  | .clearFloatingForTiled => stateClear s CONTAINER_STATE_FLOATING
  | .markUnmanaged => stateSet s CONTAINER_STATE_UNMANAGED

/-- The mutual-exclusion invariant of §8.1 of the spec. -/
def contMutex (s : Nat) : Prop :=
  ¬(stateHas s CONTAINER_STATE_FULLSCREEN = true
    ∧ stateHas s CONTAINER_STATE_MAXIMIZED = true)

instance (s : Nat) : Decidable (contMutex s) := by
  unfold contMutex; infer_instance

/-- A container's state starts at 0 (`calloc` in `cwc_container_init`). -/
def contInitState : Nat := 0

/-! ## Container geometry (src/layout/container.c) -/

/-- `struct wlr_box`. -/
structure WlrBox where
  x : Int
  y : Int
  width : Int
  height : Int
deriving DecidableEq, Repr

/-- `#define MIN_WIDTH 20` (include/cwc/server.h:256). -/
def MIN_WIDTH : Int := 20

/-- The fields of `struct cwc_container` the geometry operations touch,
for a container holding a single native (non-X11) toplevel.  `surfaceW` /
`surfaceH` record the size last applied to that toplevel's surface by
`all_toplevel_set_size`. -/
structure ContGeo where
  state : Nat
  x : Int
  y : Int
  width : Int
  height : Int
  floating_box : WlrBox
  surfaceW : Int
  surfaceH : Int
deriving DecidableEq, Repr

/-- Ambient data the geometry operations read: the workspace's useless gap,
the border thickness, whether the current layout mode is Floating, the
output dimensions, and the toplevel's advertised minimum size. -/
structure ContEnv where
  useless_gaps : Int
  border_thickness : Int
  layoutFloating : Bool
  output_width : Int
  output_height : Int
  min_width : Int
  min_height : Int
deriving DecidableEq, Repr

/-- `cwc_container_should_save_floating_box` (container.c:1057). -/
def cwc_container_should_save_floating_box (env : ContEnv) (s : Nat) : Bool :=
  cwc_container_is_floating env.layoutFloating s
  && !cwc_container_is_fullscreen s
  && !cwc_container_is_maximized s

/-- `cwc_container_set_size` (container.c:1065), together with the effect of
`all_toplevel_set_size` on the single toplevel's surface: the surface gets
`MAX(w - (border + gaps) * 2, MIN_WIDTH)` per axis, additionally raised to
the toplevel's minimum size when the container is floating; the container
itself stores the raw `w`/`h`, and a floating container in a
configure-allowed state also records them in `floating_box`. -/
def cwc_container_set_size (env : ContEnv) (c : ContGeo) (w h : Int) : ContGeo :=
  let outside_width := (env.border_thickness + env.useless_gaps) * 2
  let surface_w := max (w - outside_width) MIN_WIDTH
  let surface_h := max (h - outside_width) MIN_WIDTH
  let surface_w :=
    if cwc_container_is_floating env.layoutFloating c.state then
      max surface_w env.min_width
    else surface_w
  let surface_h :=
    if cwc_container_is_floating env.layoutFloating c.state then
      max surface_h env.min_height
    else surface_h
  { c with
    surfaceW := surface_w
    surfaceH := surface_h
    floating_box :=
      if cwc_container_should_save_floating_box env c.state then
        { c.floating_box with width := w, height := h }
      else c.floating_box
    width := w
    height := h }

/-- `cwc_container_set_position` (container.c:1103). -/
def cwc_container_set_position (env : ContEnv) (c : ContGeo) (x y : Int) : ContGeo :=
  { c with
    x := x
    y := y
    floating_box :=
      if cwc_container_should_save_floating_box env c.state then
        { c.floating_box with x := x, y := y }
      else c.floating_box }

/-- `cwc_container_set_position_gap` (container.c:1116). -/
def cwc_container_set_position_gap (env : ContEnv) (c : ContGeo) (x y : Int) : ContGeo :=
  cwc_container_set_position env c (x + env.useless_gaps) (y + env.useless_gaps)

/-- `cwc_container_restore_floating_box` (container.c:1127). -/
def cwc_container_restore_floating_box (env : ContEnv) (c : ContGeo) : ContGeo :=
  let c1 := cwc_container_set_position env c c.floating_box.x c.floating_box.y
  cwc_container_set_size env c1 c1.floating_box.width c1.floating_box.height

/-- `cwc_toplevel_set_size_surface` (toplevel.c:873): adds the border and gap
frame back and forwards to `cwc_container_set_size`. -/
def cwc_toplevel_set_size_surface (env : ContEnv) (c : ContGeo) (w h : Int) : ContGeo :=
  let outside_width := (env.border_thickness + env.useless_gaps) * 2
  cwc_container_set_size env c (w + outside_width) (h + outside_width)

/-- `cwc_toplevel_set_position` (toplevel.c:953): positions the container so
the toplevel surface (inset by the border) lands at `(x, y)`. -/
def cwc_toplevel_set_position (env : ContEnv) (c : ContGeo) (x y : Int) : ContGeo :=
  cwc_container_set_position env c (x - env.border_thickness) (y - env.border_thickness)

/-- `cwc_container_set_fullscreen` (container.c:907) restricted to the fields
of this container (BSP node enable/disable and border/scene effects touch no
field modelled here; `master_arrange_update` does not move a floating
container since its toplevel is not tileable).  On enable the state is
updated first, then `all_toplevel_set_fullscreen` resizes the surface to the
full output and positions it at the origin; on disable a floating container
is restored from its `floating_box`. -/
def cwc_container_set_fullscreen (env : ContEnv) (c : ContGeo) (set : Bool) : ContGeo :=
  if set then
    let c1 := { c with state := set_fullscreen_state c.state true }
    let c2 := cwc_toplevel_set_size_surface env c1 env.output_width env.output_height
    cwc_toplevel_set_position env c2 0 0
  else
    let c1 := { c with state := set_fullscreen_state c.state false }
    if cwc_container_is_floating env.layoutFloating c1.state then
      cwc_container_restore_floating_box env c1
    else c1

/-- `luaC_container_set_geometry` (objects/container.c:197) with a fully
populated box argument: it calls `set_position(box.x, box.y)` and then
`set_size(box.x, box.y)` — the size call passes the box origin, not the box
dimensions. -/
def luaC_container_set_geometry (env : ContEnv) (c : ContGeo) (box : WlrBox) : ContGeo :=
  let c1 := cwc_container_set_position env c box.x box.y
  cwc_container_set_size env c1 box.x box.y

/-- A gapless, borderless environment with a 1920x1080 output and a
floating layout, used for concrete evaluations. -/
def sampleEnv : ContEnv :=
  { useless_gaps := 0, border_thickness := 0, layoutFloating := true
    output_width := 1920, output_height := 1080, min_width := 0, min_height := 0 }

/-- A floating container at (100,100) sized 640x480 whose floating box
matches its geometry. -/
def sampleFloatingCont : ContGeo :=
  { state := CONTAINER_STATE_FLOATING, x := 100, y := 100, width := 640, height := 480
    floating_box := ⟨100, 100, 640, 480⟩, surfaceW := 640, surfaceH := 480 }

/-- A tiled (state-0) container at the origin, used for concrete
evaluations; the layout mode is not Floating in its environment. -/
def sampleTiledEnv : ContEnv :=
  { useless_gaps := 0, border_thickness := 0, layoutFloating := false
    output_width := 1920, output_height := 1080, min_width := 0, min_height := 0 }

def sampleTiledCont : ContGeo :=
  { state := 0, x := 0, y := 0, width := 400, height := 300
    floating_box := ⟨0, 0, 400, 300⟩, surfaceW := 400, surfaceH := 300 }

/-! ## C double arithmetic -/

/-- The C expression `(int)(n * f)` — an `int` multiplied by a `double`
factor, converted back to `int` — truncates toward zero.  Computed on the
factor's numerator and denominator so the definition evaluates by kernel
reduction; `cMulTrunc n q` is exactly the truncation toward zero of the
rational `n * q` (`cMulTrunc_eq_floor` below ties it to `Int.floor` on
nonnegative inputs). -/
def cMulTrunc (n : Int) (q : ℚ) : Int := (n * q.num).tdiv q.den

/-- The double constant `0.5`, built so that it evaluates by kernel
reduction (`Rat.divInt 1 2 = 1/2`, see `bsp_insert_spec`). -/
def half : ℚ := Rat.divInt 1 2

/-! ## BSP trees (bsp.c, concatenated into src/luaclass.c) -/

inductive BspSplitType where
  | vertical
  | horizontal
deriving DecidableEq, Repr

/-- A `struct bsp_node`: either a leaf holding a container (identified here
by a number) or an internal node with a split type, a left width factor and
two children.  Every node carries its rectangle and enabled flag. -/
inductive BspNode where
  | leaf (rect : WlrBox) (container : Nat) (enabled : Bool)
  | internal (rect : WlrBox) (split : BspSplitType) (left_wfact : ℚ)
      (left right : BspNode) (enabled : Bool)
deriving DecidableEq, Repr

/-- `struct bsp_root_entry`: the root node and the `last_focused` container. -/
structure BspRootEntry where
  root : BspNode
  last_focused : Nat
deriving DecidableEq, Repr

def BspNode.enabled : BspNode → Bool
  | .leaf _ _ e => e
  | .internal _ _ _ _ _ e => e

def BspNode.rect : BspNode → WlrBox
  | .leaf r _ _ => r
  | .internal r _ _ _ _ _ => r

/-- Overwrite a node's stored rectangle (the `bsp_node_set_position` /
`bsp_node_set_size` pair, and the unconditional child-rectangle writes of
`bsp_update_node`). -/
def bspSetRect (n : BspNode) (r : WlrBox) : BspNode :=
  match n with
  | .leaf _ c e => .leaf r c e
  | .internal _ s w l rt e => .internal r s w l rt e

/-- `bsp_update_node` (bsp.c), with the parent rectangle passed explicitly
(the C code reads it from the mutated node).  Computes both children's
rectangles from the split type and `left_wfact` — C assigns
`left->width = parent->width * parent->left_wfact` with an implicit
truncating conversion — overriding with the full parent rectangle when the
sibling is disabled, then recurses into enabled internal children;
`bsp_node_leaf_configure` stores the rectangle in the leaf. -/
def bspUpdateWith : BspNode → WlrBox → BspNode
  | .leaf _ c e, r => .leaf r c e
  | .internal _ s w l rt e, r =>
    let lrect0 : WlrBox :=
      match s with
      | .vertical => ⟨r.x, r.y, cMulTrunc r.width w, r.height⟩
      | .horizontal => ⟨r.x, r.y, r.width, cMulTrunc r.height w⟩
    let rrect0 : WlrBox :=
      match s with
      | .vertical => ⟨r.x + lrect0.width, r.y, r.width - lrect0.width, r.height⟩
      | .horizontal => ⟨r.x, r.y + lrect0.height, r.width, r.height - lrect0.height⟩
    let lrect := if rt.enabled then lrect0 else ⟨r.x, r.y, r.width, r.height⟩
    let rrect := if l.enabled then rrect0 else ⟨r.x, r.y, r.width, r.height⟩
    let lnew := if l.enabled then bspUpdateWith l lrect else bspSetRect l lrect
    let rnew := if rt.enabled then bspUpdateWith rt rrect else bspSetRect rt rrect
    .internal r s w lnew rnew e

/-- `bsp_update_root` (bsp.c:295): set the root rectangle to the output's
usable area, then run `bsp_update_node`; a leaf root is configured directly. -/
def bsp_update_root (t : BspNode) (usable : WlrBox) : BspNode :=
  match t with
  | .leaf _ c e => .leaf usable c e
  | .internal _ s w l rt e => bspUpdateWith (.internal usable s w l rt e) usable

/-- Does the tree contain a leaf for container `c`? -/
def BspNode.hasLeaf : BspNode → Nat → Bool
  | .leaf _ c _, t => c = t
  | .internal _ _ _ l r _, t => l.hasLeaf t || r.hasLeaf t

/-- `_bsp_node_enable`: enable every node from the given leaf up to the
root — functionally, enable every node on the path to container `c`. -/
def bspEnablePath : BspNode → Nat → BspNode
  | .leaf r c e, t => if c = t then .leaf r c true else .leaf r c e
  | .internal r s w l rt e, t =>
    if BspNode.hasLeaf (.internal r s w l rt e) t then
      .internal r s w (bspEnablePath l t) (bspEnablePath rt t) true
    else .internal r s w l rt e

/-- `_bsp_insert_toplevel` (bsp.c:413), tree-transformation part: the leaf
of `sibling` is replaced by a new internal node whose split type is
`Vertical` iff the sibling's stored width ≥ its height, whose `left_wfact`
is 0.5, whose rectangle is the sibling's old rectangle — except that when
the sibling is the root the rectangle is the output's usable area — with
the sibling as left child and a fresh zero-rectangle leaf for `new` as
right child (`calloc` in `bsp_node_leaf_create`). -/
def bspInsertAt : BspNode → Nat → Nat → WlrBox → Bool → BspNode
  | .leaf r c e, sib, nw, usable, isRoot =>
    if c = sib then
      let split := if r.width ≥ r.height then BspSplitType.vertical
        else BspSplitType.horizontal
      let prect := if isRoot then usable else r
      .internal prect split half (.leaf r c e) (.leaf ⟨0, 0, 0, 0⟩ nw true) true
    else .leaf r c e
  | .internal r s w l rt e, sib, nw, usable, _ =>
    .internal r s w (bspInsertAt l sib nw usable false)
      (bspInsertAt rt sib nw usable false) e

/-- Is the root a leaf holding container `sib`?  (`left == root_entry->root`
in `_bsp_insert_toplevel`.) -/
def bspRootIsLeafOf (t : BspNode) (sib : Nat) : Bool :=
  match t with
  | .leaf _ c _ => c = sib
  | .internal _ _ _ _ _ _ => false

/-- `bsp_node_enable` called on the freshly inserted right leaf: enable the
path to the root, then re-arrange from the root (`bsp_update_node` on an
internal root with its stored rectangle, `bsp_update_root` on a leaf root). -/
def bspEnableAndUpdate (t : BspNode) (c : Nat) (usable : WlrBox) : BspNode :=
  let t1 := bspEnablePath t c
  match t1 with
  | .leaf r cc e => bsp_update_root (.leaf r cc e) usable
  | .internal r s w l rt e => bspUpdateWith (.internal r s w l rt e) r

/-- `bsp_insert_container` (bsp.c:468): an empty workspace gets the new
container as root leaf (configured to the usable area by
`bsp_update_root`); otherwise the new container is inserted next to
`last_focused`; in both cases `last_focused` becomes the new container. -/
def bsp_insert_container (entry : Option BspRootEntry) (usable : WlrBox)
    (nw : Nat) : BspRootEntry :=
  match entry with
  | none =>
    { root := bsp_update_root (.leaf ⟨0, 0, 0, 0⟩ nw true) usable
      last_focused := nw }
  | some e =>
    let sib := e.last_focused
    let t1 := bspInsertAt e.root sib nw usable (bspRootIsLeafOf e.root sib)
    { root := bspEnableAndUpdate t1 nw usable, last_focused := nw }

/-- Rectangle of container `c`'s leaf, if present. -/
def bspLeafRect : BspNode → Nat → Option WlrBox
  | .leaf r cc _, c => if cc = c then some r else none
  | .internal _ _ _ l rt _, c =>
    match bspLeafRect l c with
    | some r => some r
    | none => bspLeafRect rt c

/-- Four consecutive inserts of containers 0,1,2,3 into an initially empty
BSP workspace on a 1600x900 usable area. -/
def bspScenario : BspRootEntry :=
  let u : WlrBox := ⟨0, 0, 1600, 900⟩
  let e1 := bsp_insert_container none u 0
  let e2 := bsp_insert_container (some e1) u 1
  let e3 := bsp_insert_container (some e2) u 2
  bsp_insert_container (some e3) u 3

/-! ## Master/stack `tile` strategy (src/layout/container.c:1288) -/

/-- The fields of `struct master_state` the `tile` strategy reads. -/
structure MasterState where
  master_count : Int
  mwfact : ℚ
deriving DecidableEq, Repr

/-- `arrange_tile` (container.c:1288) for `len` toplevels, returning the
container rectangle assigned to each `T[i]` in order (position as applied
through `set_position_gap`, size as the raw arguments of `set_size`).
`master_width = usable.width * mwfact` truncates as in C; the stack rows
use the C integer division `usable.height / (len - master_count)` and the
last row takes whatever height is left.  The strategy is only invoked with
`len ≥ 1` (master_arrange_update checks `i >= 1`). -/
def arrange_tile (usable : WlrBox) (ms : MasterState) (gaps : Int)
    (len : Nat) : List WlrBox :=
  if len = 0 then []
  else if len = 1 then
    [⟨usable.x + gaps, usable.y + gaps, usable.width, usable.height⟩]
  else
    let master_width := cMulTrunc usable.width ms.mwfact
    let sec_width := usable.width - master_width
    let sec_count := (len : Int) - ms.master_count
    let sec_height := Int.tdiv usable.height sec_count
    let master : WlrBox := ⟨usable.x + gaps, usable.y + gaps, master_width, usable.height⟩
    let mid := (List.range (len - 2)).map (fun (i : Nat) =>
      (⟨master_width + gaps, (i : Int) * sec_height + usable.y + gaps,
        sec_width, sec_height⟩ : WlrBox))
    let last : WlrBox := ⟨master_width + gaps,
      ((len : Int) - 2) * sec_height + usable.y + gaps, sec_width,
      usable.height - ((len : Int) - 2) * sec_height⟩
    master :: (mid ++ [last])

/-! ## master_arrange_update collection loop (container.c:1367) -/

/-- A container as seen by the collection loop of `master_arrange_update`:
its identity and whether its front toplevel is tileable. -/
structure MContainer where
  id : Nat
  front_tileable : Bool
deriving DecidableEq, Repr

/-- The collection loop of `master_arrange_update`: walk the output's
container list, writing each tileable front toplevel at buffer index `i`
(`tiled_visible[i++] = front`), and break as soon as `i > 49`.  The result
lists the `(index, container)` writes performed into the 50-entry buffer. -/
def master_collect : List MContainer → Nat → List (Nat × Nat)
  | [], _ => []
  | c :: rest, i =>
    if c.front_tileable then
      if i + 1 > 49 then [(i, c.id)]
      else (i, c.id) :: master_collect rest (i + 1)
    else
      if i > 49 then [] else master_collect rest i

/-! ## Keybinding map (src/input/keybinding.c, util-map.c) -/

/-- The callback pair of `struct cwc_keybind_info` (callbacks identified by
numbers; `0`/NULL callbacks are `none`). -/
structure cwc_keybind_info where
  luaref_press : Option Nat
  luaref_release : Option Nat
deriving DecidableEq, Repr

/-- `keybind_generate_key` (keybinding.c:45): `(modifiers << 32) | keysym`
on 32-bit operands. -/
def keybind_generate_key (modifiers key : Nat) : Nat :=
  ((modifiers % 2 ^ 32) <<< 32) ||| (key % 2 ^ 32)

/-- The hash map from generated keys to keybind info, modelled as an
association list (the open-addressed map of util-map.c keyed by the
64-bit generated key). -/
def KeybindMap : Type := List (Nat × cwc_keybind_info)

/-- `cwc_hhmap_nget`. -/
def cwc_hhmap_get : KeybindMap → Nat → Option cwc_keybind_info
  | [], _ => none
  | e :: rest, k => if e.1 = k then some e.2 else cwc_hhmap_get rest k

/-- `__cwc_hhmap_insert` (util-map.c:97): overwrite the entry with the same
key if one exists, otherwise add a new entry. -/
def cwc_hhmap_insert : KeybindMap → Nat → cwc_keybind_info → KeybindMap
  | [], k, v => [(k, v)]
  | e :: rest, k, v =>
    if e.1 = k then (k, v) :: rest else e :: cwc_hhmap_insert rest k v

/-- `__cwc_hhmap_remove` (util-map.c:235): remove the entry with the key,
if any. -/
def cwc_hhmap_remove : KeybindMap → Nat → KeybindMap
  | [], _ => []
  | e :: rest, k => if e.1 = k then rest else e :: cwc_hhmap_remove rest k

/-- `__keybind_remove_if_exist` (keybinding.c:115): look the key up, and
remove (after freeing the info) when present. -/
def keybind_remove_if_exist (m : KeybindMap) (k : Nat) : KeybindMap :=
  match cwc_hhmap_get m k with
  | none => m
  | some _ => cwc_hhmap_remove m k

/-- `__keybind_register` (keybinding.c:63): remove any existing binding
under the generated key, then insert the new one. -/
def keybind_register (m : KeybindMap) (modifiers key : Nat)
    (info : cwc_keybind_info) : KeybindMap :=
  let gk := keybind_generate_key modifiers key
  cwc_hhmap_insert (keybind_remove_if_exist m gk) gk info

/-- Every operation the program performs on a keybinding map: register,
explicit remove, and clear (`keybind_kbd_clear` frees the map and creates an
empty one; the re-registration of the chvt keys is a sequence of registers). -/
inductive KbOp where
  | register (modifiers key : Nat) (info : cwc_keybind_info)
  | remove (modifiers key : Nat)
  | clear
deriving DecidableEq

def kbStep (m : KeybindMap) (op : KbOp) : KeybindMap :=
  match op with
  | .register mods key info => keybind_register m mods key info
  | .remove mods key => keybind_remove_if_exist m (keybind_generate_key mods key)
  | .clear => []

/-- Number of entries stored under key `k`. -/
def keyCount (m : KeybindMap) (k : Nat) : Nat :=
  (List.filter (fun e => e.1 = k) m).length

/-! ## Keyboard dispatch (src/input/cursor.c:1353) -/

/-- `__keybind_execute` (keybinding.c:138): returns the list of callbacks
invoked and whether a binding matched.  A matching binding consumes the key
even when it has no callback for this direction. -/
def keybind_execute (m : KeybindMap) (modifiers key : Nat) (press : Bool) :
    List Nat × Bool :=
  match cwc_hhmap_get m (keybind_generate_key modifiers key) with
  | none => ([], false)
  | some info =>
    ((if press then info.luaref_press else info.luaref_release).toList, true)

/-- `on_kbd_key` (cursor.c:1353): on press, dispatch only when the session
lock is not engaged and forward to the client iff no binding matched
(`handled`); on release, dispatch (when unlocked) but always forward, since
the release branch never sets `handled`.  Returns (callbacks invoked,
forwarded-to-client). -/
def on_kbd_key (locked : Bool) (m : KeybindMap) (modifiers keysym : Nat)
    (pressed : Bool) : List Nat × Bool :=
  if pressed then
    let r := if locked then (([] : List Nat), false)
      else keybind_execute m modifiers keysym true
    (r.1, !r.2)
  else
    ((if locked then [] else (keybind_execute m modifiers keysym false).1), true)

/-! ## Resize edge inference (src/input/cursor.c:317) -/

def WLR_EDGE_NONE : Nat := 0
def WLR_EDGE_TOP : Nat := 1
def WLR_EDGE_BOTTOM : Nat := 2
def WLR_EDGE_LEFT : Nat := 4
def WLR_EDGE_RIGHT : Nat := 8

/-- `surface_coord_to_normdevice_coord` (toplevel.c:1077): map the geometry
box to `[-1,1]^2` with `(0,0)` at the center. -/
def surface_coord_to_normdevice_coord (geo : WlrBox) (sx sy : ℚ) : ℚ × ℚ :=
  (sx / ((geo.width : ℚ) / 2) - 1, sy / ((geo.height : ℚ) / 2) - 1)

/-- The corner fallback of `decide_which_edge_to_resize`. -/
def edgeCorner (nx ny : ℚ) : Nat :=
  (if nx ≥ -(1/20) then WLR_EDGE_RIGHT else WLR_EDGE_LEFT)
  ||| (if ny ≥ -(1/20) then WLR_EDGE_BOTTOM else WLR_EDGE_TOP)

/-- The branch structure of `decide_which_edge_to_resize` (cursor.c:317) on
the normalized-device coordinates: exclusive single-edge checks first
(falling through to the corner check when the inner thresholds fail), then
the corner pair. -/
def decide_edges (nx ny : ℚ) : Nat :=
  if nx ≥ -(3/10) ∧ nx ≤ 3/10 then
    if ny ≤ -(4/10) then WLR_EDGE_TOP
    else if ny ≥ 6/10 then WLR_EDGE_BOTTOM
    else edgeCorner nx ny
  else if ny ≥ -(3/10) ∧ ny ≤ 3/10 then
    if nx ≤ -(4/10) then WLR_EDGE_LEFT
    else if nx ≥ 6/10 then WLR_EDGE_RIGHT
    else edgeCorner nx ny
  else edgeCorner nx ny

/-- `decide_which_edge_to_resize` (cursor.c:317). -/
def decide_which_edge_to_resize (sx sy : ℚ) (geo : WlrBox) : Nat :=
  let n := surface_coord_to_normdevice_coord geo sx sy
  decide_edges n.1 n.2

/-- The edge selection of `start_interactive_resize` (cursor.c:367):
`edges = edges ? edges : decide_which_edge_to_resize(sx, sy, geo_box)`. -/
def start_interactive_resize_edges (edges : Nat) (sx sy : ℚ) (geo : WlrBox) : Nat :=
  if edges ≠ 0 then edges else decide_which_edge_to_resize sx sy geo

/-- The edge rule exactly as claim C6 words it: a single edge whenever the
coordinate along that edge's axis has absolute value ≤ 0.3 and the
perpendicular coordinate has absolute value in (0.4, 1]; in every other
case a corner pair chosen from the signs of `nx` and `ny`. -/
def claimC6_edge_rule (nx ny : ℚ) : Nat :=
  if |nx| ≤ 3/10 ∧ 4/10 < |ny| ∧ |ny| ≤ 1 then
    (if ny < 0 then WLR_EDGE_TOP else WLR_EDGE_BOTTOM)
  else if |ny| ≤ 3/10 ∧ 4/10 < |nx| ∧ |nx| ≤ 1 then
    (if nx < 0 then WLR_EDGE_LEFT else WLR_EDGE_RIGHT)
  else
    (if nx < 0 then WLR_EDGE_LEFT else WLR_EDGE_RIGHT)
    ||| (if ny < 0 then WLR_EDGE_TOP else WLR_EDGE_BOTTOM)

/-- The edge rule the code actually implements, stated region-wise: TOP when
`|nx| ≤ 0.3` and `ny ≤ -0.4`; BOTTOM when `|nx| ≤ 0.3` and `ny ≥ 0.6`; LEFT
when `|nx| > 0.3`, `|ny| ≤ 0.3` and `nx ≤ -0.4`; RIGHT when `|nx| > 0.3`,
`|ny| ≤ 0.3` and `nx ≥ 0.6`; otherwise the corner pair with the `-0.05`
thresholds (`≥ -0.05` selects right/bottom, below selects left/top). -/
def amendedC6_edge_rule (nx ny : ℚ) : Nat :=
  if |nx| ≤ 3/10 ∧ ny ≤ -(4/10) then WLR_EDGE_TOP
  else if |nx| ≤ 3/10 ∧ ny ≥ 6/10 then WLR_EDGE_BOTTOM
  else if 3/10 < |nx| ∧ |ny| ≤ 3/10 ∧ nx ≤ -(4/10) then WLR_EDGE_LEFT
  else if 3/10 < |nx| ∧ |ny| ≤ 3/10 ∧ nx ≥ 6/10 then WLR_EDGE_RIGHT
  else
    (if nx ≥ -(1/20) then WLR_EDGE_RIGHT else WLR_EDGE_LEFT)
    ||| (if ny ≥ -(1/20) then WLR_EDGE_BOTTOM else WLR_EDGE_TOP)

end Cwc

namespace Cwc

/-! # Theorems -/

lemma contStep_preserves (op : ContOp) :
    ∀ s : Nat, s < 64 → contMutex s →
      contStep op s < 64 ∧ contMutex (contStep op s) := by
  cases op with
  | fullscreen set => revert set; decide
  | maximized set => revert set; decide
  | minimized set => revert set; decide
  | floating lf set => revert lf set; decide
  | sticky set => revert set; decide
  | clearFloatingForTiled => decide
  | markUnmanaged => decide

lemma contFold_preserves (ops : List ContOp) :
    ∀ s : Nat, s < 64 → contMutex s →
      ops.foldl (fun s op => contStep op s) s < 64
      ∧ contMutex (ops.foldl (fun s op => contStep op s) s) := by
  induction ops with
  | nil => intro s hs hm; exact ⟨hs, hm⟩
  | cons op rest ih =>
    intro s hs hm
    have h := contStep_preserves op s hs hm
    simpa using ih (contStep op s) h.1 h.2

/-- Claim C3: starting from a fresh container, no sequence of the program's
state-bitfield writes can ever make the Fullscreen and Maximized bits
simultaneously set; in particular `set_fullscreen(c, true)` clears the
Maximized bit and `set_maximized(c, true)` clears the Fullscreen bit. -/
theorem fullscreen_maximized_mutually_exclusive :
    (∀ ops : List ContOp,
      contMutex (ops.foldl (fun s op => contStep op s) contInitState))
    ∧ (∀ s : Nat, s < 64 →
        stateHas (set_fullscreen_state s true) CONTAINER_STATE_MAXIMIZED = false)
    ∧ (∀ s : Nat, s < 64 →
        stateHas (set_maximized_state s true) CONTAINER_STATE_FULLSCREEN = false) := by
  refine ⟨fun ops => (contFold_preserves ops contInitState (by decide) (by decide)).2,
    ?_, ?_⟩ <;> decide

/-- Claim C1: inserting into an empty BSP workspace makes the new container
the root leaf (configured to the usable area); inserting next to a sibling
leaf replaces it by an internal node split Vertical iff the sibling's width
≥ its height (with the usable area as rectangle when the sibling was the
root, the sibling's rectangle otherwise), `left_wfact = 0.5`, sibling left
and the new container right; `last_focused` always becomes the new
container.  Four consecutive inserts on a 1600x900 area yield
A=(0,0,800,900), B=(800,0,800,450), C=(800,450,400,450),
D=(1200,450,400,450). -/
theorem bsp_insert_spec :
    (∀ (usable : WlrBox) (nw : Nat),
      bsp_insert_container none usable nw
        = ⟨BspNode.leaf usable nw true, nw⟩)
    ∧ (∀ (entry : Option BspRootEntry) (usable : WlrBox) (nw : Nat),
        (bsp_insert_container entry usable nw).last_focused = nw)
    ∧ (∀ (r : WlrBox) (sib nw : Nat) (usable : WlrBox) (e : Bool),
        bspInsertAt (.leaf r sib e) sib nw usable true
          = .internal usable
              (if r.width ≥ r.height then .vertical else .horizontal)
              half (.leaf r sib e) (.leaf ⟨0, 0, 0, 0⟩ nw true) true
        ∧ bspInsertAt (.leaf r sib e) sib nw usable false
          = .internal r
              (if r.width ≥ r.height then .vertical else .horizontal)
              half (.leaf r sib e) (.leaf ⟨0, 0, 0, 0⟩ nw true) true)
    ∧ half = (1/2 : ℚ)
    ∧ (bspLeafRect bspScenario.root 0 = some ⟨0, 0, 800, 900⟩
       ∧ bspLeafRect bspScenario.root 1 = some ⟨800, 0, 800, 450⟩
       ∧ bspLeafRect bspScenario.root 2 = some ⟨800, 450, 400, 450⟩
       ∧ bspLeafRect bspScenario.root 3 = some ⟨1200, 450, 400, 450⟩
       ∧ bspScenario.last_focused = 3) := by
  refine ⟨?_, ?_, ?_, ?_, by decide⟩
  · intro usable nw
    simp [bsp_insert_container, bsp_update_root]
  · intro entry usable nw
    cases entry <;> rfl
  · intro r sib nw usable e
    constructor <;> simp [bspInsertAt]
  · rw [half, Rat.divInt_eq_div]
    norm_num

lemma cMulTrunc_eq_floor (n : Int) (q : ℚ) (hn : 0 ≤ n) (hq : 0 ≤ q) :
    cMulTrunc n q = ⌊(n : ℚ) * q⌋ := by
  have hnum : 0 ≤ q.num := Rat.num_nonneg.mpr hq
  have h2 : (n : ℚ) * q = ((n * q.num : ℤ) : ℚ) / ((q.den : ℕ) : ℚ) := by
    push_cast
    rw [mul_div_assoc, Rat.num_div_den]
  rw [cMulTrunc, Int.tdiv_eq_ediv (mul_nonneg hn hnum) (by positivity), h2,
    Rat.floor_intCast_div_natCast]

/-- Claim C2: the `tile` strategy with gap 0 gives a single container the
whole usable area; with `n ≥ 2` containers, `T[0]` gets a master column of
width `floor(usable.w * mwfact)` at the usable-area origin and `T[1..n-1]`
are equal-height rows of the remaining width whose last row absorbs the
rounding remainder so the row heights total `usable.h`; in particular on
1920x1080 with `mwfact = 0.5` and `n = 3` the rectangles are
(0,0,960,1080), (960,0,960,540), (960,540,960,540). -/
theorem arrange_tile_spec (usable : WlrBox) (ms : MasterState) (len : Nat)
    (hmc : ms.master_count = 1) (h2 : 2 ≤ len)
    (hw : 0 ≤ usable.width) (hf : 0 ≤ ms.mwfact) (hx : usable.x = 0) :
    arrange_tile usable ms 0 1
      = [⟨usable.x, usable.y, usable.width, usable.height⟩]
    ∧ arrange_tile usable ms 0 len
      = ⟨0, usable.y, ⌊(usable.width : ℚ) * ms.mwfact⌋, usable.height⟩
        :: ((List.range (len - 2)).map (fun (i : Nat) =>
              ⟨⌊(usable.width : ℚ) * ms.mwfact⌋,
               (i : Int) * Int.tdiv usable.height ((len : Int) - 1) + usable.y,
               usable.width - ⌊(usable.width : ℚ) * ms.mwfact⌋,
               Int.tdiv usable.height ((len : Int) - 1)⟩)
            ++ [⟨⌊(usable.width : ℚ) * ms.mwfact⌋,
                ((len : Int) - 2) * Int.tdiv usable.height ((len : Int) - 1)
                  + usable.y,
                usable.width - ⌊(usable.width : ℚ) * ms.mwfact⌋,
                usable.height
                  - ((len : Int) - 2)
                    * Int.tdiv usable.height ((len : Int) - 1)⟩])
    ∧ ((arrange_tile usable ms 0 len).tail.map WlrBox.height).sum
        = usable.height
    ∧ arrange_tile ⟨0, 0, 1920, 1080⟩ ⟨1, half⟩ 0 3
        = [⟨0, 0, 960, 1080⟩, ⟨960, 0, 960, 540⟩, ⟨960, 540, 960, 540⟩] := by
  have hlen0 : len ≠ 0 := by omega
  have hlen1 : len ≠ 1 := by omega
  have hmw : cMulTrunc usable.width ms.mwfact
      = ⌊(usable.width : ℚ) * ms.mwfact⌋ :=
    cMulTrunc_eq_floor _ _ hw hf
  have harr : arrange_tile usable ms 0 len
      = ⟨0, usable.y, ⌊(usable.width : ℚ) * ms.mwfact⌋, usable.height⟩
        :: ((List.range (len - 2)).map (fun (i : Nat) =>
              ⟨⌊(usable.width : ℚ) * ms.mwfact⌋,
               (i : Int) * Int.tdiv usable.height ((len : Int) - 1) + usable.y,
               usable.width - ⌊(usable.width : ℚ) * ms.mwfact⌋,
               Int.tdiv usable.height ((len : Int) - 1)⟩)
            ++ [⟨⌊(usable.width : ℚ) * ms.mwfact⌋,
                ((len : Int) - 2) * Int.tdiv usable.height ((len : Int) - 1)
                  + usable.y,
                usable.width - ⌊(usable.width : ℚ) * ms.mwfact⌋,
                usable.height
                  - ((len : Int) - 2)
                    * Int.tdiv usable.height ((len : Int) - 1)⟩]) := by
    unfold arrange_tile
    rw [if_neg hlen0, if_neg hlen1]
    simp only [hmc, hmw, hx, add_zero, zero_add]
  refine ⟨by simp [arrange_tile, hx], harr, ?_, by decide⟩
  rw [harr]
  simp only [List.tail_cons, List.map_append, List.map_map, List.sum_append]
  have hconst : (WlrBox.height ∘ fun i : ℕ =>
      (⟨⌊(usable.width : ℚ) * ms.mwfact⌋,
        (i : Int) * Int.tdiv usable.height ((len : Int) - 1) + usable.y,
        usable.width - ⌊(usable.width : ℚ) * ms.mwfact⌋,
        Int.tdiv usable.height ((len : Int) - 1)⟩ : WlrBox))
      = Function.const ℕ (Int.tdiv usable.height ((len : Int) - 1)) := rfl
  rw [hconst, List.map_const, List.sum_replicate]
  simp only [List.map_cons, List.map_nil, List.sum_cons, List.sum_nil,
    List.length_range, add_zero]
  rw [nsmul_eq_mul]
  have hcast : ((len - 2 : ℕ) : ℤ) = (len : ℤ) - 2 := by
    omega
  rw [hcast]
  ring

/-- Witness for C2 at the 1920x1080, `mwfact = 0.5`, `n = 3` input. -/
theorem arrange_tile_spec_witness :
    ((arrange_tile ⟨0, 0, 1920, 1080⟩ ⟨1, half⟩ 0 3).tail.map WlrBox.height).sum
      = 1080 :=
  (arrange_tile_spec ⟨0, 0, 1920, 1080⟩ ⟨1, half⟩ 3 rfl (by norm_num)
    (by norm_num) (by decide) rfl).2.2.1

lemma is_fullscreen_after_set :
    ∀ s : Nat, s < 64 →
      cwc_container_is_fullscreen (set_fullscreen_state s true) = true := by
  decide

lemma is_floating_after_roundtrip (lf : Bool) :
    ∀ s : Nat, s < 64 → cwc_container_is_floating lf s = true →
      cwc_container_is_floating lf
        (set_fullscreen_state (set_fullscreen_state s true) false) = true := by
  cases lf <;> decide

lemma should_save_false_of_fullscreen (env : ContEnv) (s : Nat)
    (h : cwc_container_is_fullscreen s = true) :
    cwc_container_should_save_floating_box env s = false := by
  simp [cwc_container_should_save_floating_box, h]

lemma set_fullscreen_state_of_set_fullscreen (env : ContEnv) (c : ContGeo) :
    (cwc_container_set_fullscreen env c true).state
      = set_fullscreen_state c.state true := by
  simp [cwc_container_set_fullscreen, cwc_toplevel_set_size_surface,
    cwc_toplevel_set_position, cwc_container_set_size, cwc_container_set_position]

lemma set_fullscreen_false_restores (env : ContEnv) (c1 : ContGeo)
    (hfl2 : cwc_container_is_floating env.layoutFloating
      (set_fullscreen_state c1.state false) = true) :
    (cwc_container_set_fullscreen env c1 false).x = c1.floating_box.x
    ∧ (cwc_container_set_fullscreen env c1 false).y = c1.floating_box.y
    ∧ (cwc_container_set_fullscreen env c1 false).width = c1.floating_box.width
    ∧ (cwc_container_set_fullscreen env c1 false).height = c1.floating_box.height := by
  simp [cwc_container_set_fullscreen, hfl2, cwc_container_restore_floating_box,
    cwc_container_set_position, cwc_container_set_size, apply_ite]

/-- Claim C4: a floating container in a configure-allowed state with saved
floating box (x,y,w,h) is resized by `set_fullscreen(true)` to the full
output rectangle (0,0,output.w,output.h) (borderless, gapless environment)
without overwriting its `floating_box`, and `set_fullscreen(false)` then
restores exactly (x,y,w,h). -/
theorem fullscreen_roundtrip_preserves_floating_box (env : ContEnv) (c : ContGeo)
    (hg : env.useless_gaps = 0) (hb : env.border_thickness = 0)
    (hfl : cwc_container_is_floating env.layoutFloating c.state = true)
    (hcfg : cwc_container_is_configure_allowed c.state = true)
    (hs : c.state < 64) :
    ((cwc_container_set_fullscreen env c true).x = 0
     ∧ (cwc_container_set_fullscreen env c true).y = 0
     ∧ (cwc_container_set_fullscreen env c true).width = env.output_width
     ∧ (cwc_container_set_fullscreen env c true).height = env.output_height
     ∧ (cwc_container_set_fullscreen env c true).floating_box = c.floating_box)
    ∧ ((cwc_container_set_fullscreen env
          (cwc_container_set_fullscreen env c true) false).x = c.floating_box.x
       ∧ (cwc_container_set_fullscreen env
            (cwc_container_set_fullscreen env c true) false).y = c.floating_box.y
       ∧ (cwc_container_set_fullscreen env
            (cwc_container_set_fullscreen env c true) false).width
           = c.floating_box.width
       ∧ (cwc_container_set_fullscreen env
            (cwc_container_set_fullscreen env c true) false).height
           = c.floating_box.height) := by
  have h1 : cwc_container_is_fullscreen (set_fullscreen_state c.state true) = true :=
    is_fullscreen_after_set c.state hs
  have hss : cwc_container_should_save_floating_box env
      (set_fullscreen_state c.state true) = false :=
    should_save_false_of_fullscreen env _ h1
  have hfl2 : cwc_container_is_floating env.layoutFloating
      (set_fullscreen_state (set_fullscreen_state c.state true) false) = true :=
    is_floating_after_roundtrip env.layoutFloating c.state hs hfl
  have hpart1 : (cwc_container_set_fullscreen env c true).x = 0
      ∧ (cwc_container_set_fullscreen env c true).y = 0
      ∧ (cwc_container_set_fullscreen env c true).width = env.output_width
      ∧ (cwc_container_set_fullscreen env c true).height = env.output_height
      ∧ (cwc_container_set_fullscreen env c true).floating_box = c.floating_box := by
    simp [cwc_container_set_fullscreen, cwc_toplevel_set_size_surface,
      cwc_toplevel_set_position, cwc_container_set_size, cwc_container_set_position,
      hss, hg, hb]
  refine ⟨hpart1, ?_⟩
  have hrest := set_fullscreen_false_restores env (cwc_container_set_fullscreen env c true)
    (by rw [set_fullscreen_state_of_set_fullscreen]; exact hfl2)
  rw [hpart1.2.2.2.2] at hrest
  exact hrest

/-- Witness for C4: the 640x480 floating container at (100,100) of the
spec's seed scenario, on a 1920x1080 output. -/
theorem fullscreen_roundtrip_preserves_floating_box_witness :
    ((cwc_container_set_fullscreen sampleEnv sampleFloatingCont true).width = 1920)
    ∧ ((cwc_container_set_fullscreen sampleEnv
         (cwc_container_set_fullscreen sampleEnv sampleFloatingCont true) false).x = 100) :=
  ⟨(fullscreen_roundtrip_preserves_floating_box sampleEnv sampleFloatingCont
      rfl rfl (by decide) (by decide) (by decide)).1.2.2.1,
   (fullscreen_roundtrip_preserves_floating_box sampleEnv sampleFloatingCont
      rfl rfl (by decide) (by decide) (by decide)).2.1⟩

/-- Claim C7 counterexample: `set_size(5, 5)` on a tiled, gapless,
borderless container leaves the container's stored width at 5, not ≥ 20;
only the toplevel surface is clamped to `MIN_WIDTH` (20). -/
theorem set_size_min_counterexample :
    (cwc_container_set_size sampleTiledEnv sampleTiledCont 5 5).width = 5
    ∧ (cwc_container_set_size sampleTiledEnv sampleTiledCont 5 5).height = 5
    ∧ ¬(20 ≤ (cwc_container_set_size sampleTiledEnv sampleTiledCont 5 5).width)
    ∧ (cwc_container_set_size sampleTiledEnv sampleTiledCont 5 5).surfaceW = 20
    ∧ (cwc_container_set_size sampleTiledEnv sampleTiledCont 5 5).surfaceH = 20 := by
  decide

/-- Claim C7 (amended): `set_size(w, h)` clamps the toplevel surface
dimensions — each is at least `MIN_WIDTH` = 20 after subtracting the border
and gap frame — while the container's stored width/height take the raw
requested values. -/
theorem set_size_clamps_surface (env : ContEnv) (c : ContGeo) (w h : Int) :
    MIN_WIDTH ≤ (cwc_container_set_size env c w h).surfaceW
    ∧ MIN_WIDTH ≤ (cwc_container_set_size env c w h).surfaceH
    ∧ (cwc_container_set_size env c w h).width = w
    ∧ (cwc_container_set_size env c w h).height = h := by
  unfold cwc_container_set_size
  refine ⟨?_, ?_, rfl, rfl⟩ <;>
    · simp only
      split <;> simp [le_max_iff]

/-- Claim C8 (the code bug the spec flags): `set_geometry` with box
(10,20,300,200) moves the container to (10,20) but sets its size to
(10,20) — the box origin — instead of (300,200), because
`luaC_container_set_geometry` passes `box.x, box.y` to `set_size`. -/
theorem set_geometry_uses_origin_as_size :
    (luaC_container_set_geometry sampleTiledEnv sampleTiledCont ⟨10, 20, 300, 200⟩).x = 10
    ∧ (luaC_container_set_geometry sampleTiledEnv sampleTiledCont ⟨10, 20, 300, 200⟩).y = 20
    ∧ (luaC_container_set_geometry sampleTiledEnv sampleTiledCont ⟨10, 20, 300, 200⟩).width = 10
    ∧ (luaC_container_set_geometry sampleTiledEnv sampleTiledCont ⟨10, 20, 300, 200⟩).height = 20
    ∧ (luaC_container_set_geometry sampleTiledEnv sampleTiledCont
        ⟨10, 20, 300, 200⟩).width ≠ 300
    ∧ (luaC_container_set_geometry sampleTiledEnv sampleTiledCont
        ⟨10, 20, 300, 200⟩).height ≠ 200 := by
  decide

lemma master_collect_general (l : List MContainer) :
    ∀ i : Nat, i ≤ 49 →
      (master_collect l i).map Prod.snd
        = ((l.filter (fun c => c.front_tileable)).map MContainer.id).take (50 - i)
      ∧ ∀ p ∈ master_collect l i, p.1 ≤ 49 := by
  induction l with
  | nil => intro i hi; simp [master_collect]
  | cons c rest ih =>
    intro i hi
    by_cases hc : c.front_tileable
    · by_cases hstop : i + 1 > 49
      · have hi49 : i = 49 := by omega
        subst hi49
        simp [master_collect, hc, hstop, List.filter_cons]
      · have h2 : i + 1 ≤ 49 := by omega
        obtain ⟨h3, h4⟩ := ih (i + 1) h2
        have htake : 50 - i = (50 - (i + 1)) + 1 := by omega
        refine ⟨?_, ?_⟩
        · simp [master_collect, hc, hstop, List.filter_cons, h3, htake]
        · intro p hp
          simp only [master_collect, hc, if_true, if_neg hstop, List.mem_cons] at hp
          rcases hp with hp | hp
          · subst hp; omega
          · exact h4 p hp
    · obtain ⟨h3, h4⟩ := ih i hi
      have hno : ¬(i > 49) := by omega
      refine ⟨?_, ?_⟩
      · simp [master_collect, hc, hno, List.filter_cons, h3]
      · intro p hp
        simp only [master_collect, hc, if_false, if_neg hno] at hp
        exact h4 p hp

/-- Claim C9: the collection loop of `master_arrange_update` hands the
strategy exactly the first 50 tileable front toplevels in container-list
order, every write lands at a buffer index < 50 (inside the 50-entry
`tiled_visible` array), and any further tileable containers are dropped. -/
theorem master_collect_spec (l : List MContainer) :
    (master_collect l 0).map Prod.snd
      = ((l.filter (fun c => c.front_tileable)).map MContainer.id).take 50
    ∧ (∀ p ∈ master_collect l 0, p.1 < 50)
    ∧ (master_collect l 0).length ≤ 50 := by
  obtain ⟨h1, h2⟩ := master_collect_general l 0 (by omega)
  refine ⟨h1, fun p hp => by have := h2 p hp; omega, ?_⟩
  have hlen : (master_collect l 0).length
      = ((master_collect l 0).map Prod.snd).length := by simp
  rw [hlen, h1]
  exact le_trans (List.length_take_le _ _) (by omega)

/-- Witness for C9 at a concrete container list. -/
theorem master_collect_spec_witness :
    ((0, 7) ∈ master_collect [⟨7, true⟩, ⟨8, false⟩] 0)
    ∧ (0, 7).1 < 50 :=
  ⟨by decide, (master_collect_spec [⟨7, true⟩, ⟨8, false⟩]).2.1 (0, 7) (by decide)⟩

lemma keyCount_cons (e : Nat × cwc_keybind_info) (m : KeybindMap) (k : Nat) :
    keyCount (e :: m) k = (if e.1 = k then 1 else 0) + keyCount m k := by
  by_cases h : e.1 = k <;> simp [keyCount, List.filter_cons, h, Nat.add_comm]

lemma keyCount_remove_le (m : KeybindMap) (k k' : Nat) :
    keyCount (cwc_hhmap_remove m k) k' ≤ keyCount m k' := by
  induction m with
  | nil => simp [cwc_hhmap_remove]
  | cons e rest ih =>
    rw [cwc_hhmap_remove]
    split
    · rw [keyCount_cons]; omega
    · rw [keyCount_cons, keyCount_cons]; omega

lemma keyCount_remove_eq_zero (m : KeybindMap) (k : Nat)
    (h : keyCount m k ≤ 1) : keyCount (cwc_hhmap_remove m k) k = 0 := by
  induction m with
  | nil => simp [cwc_hhmap_remove, keyCount]
  | cons e rest ih =>
    rw [keyCount_cons] at h
    rw [cwc_hhmap_remove]
    split
    · rename_i he
      rw [if_pos he] at h
      have : keyCount rest k = 0 := by omega
      omega
    · rename_i he
      rw [if_neg he] at h
      rw [keyCount_cons, if_neg he]
      simpa using ih (by omega)

lemma remove_none_id (m : KeybindMap) (k : Nat)
    (h : cwc_hhmap_get m k = none) : cwc_hhmap_remove m k = m := by
  induction m with
  | nil => rfl
  | cons e rest ih =>
    rw [cwc_hhmap_get] at h
    rw [cwc_hhmap_remove]
    split
    · rename_i he; rw [if_pos he] at h; exact absurd h (by simp)
    · rename_i he; rw [if_neg he] at h; rw [ih h]

lemma remove_if_exist_eq (m : KeybindMap) (k : Nat) :
    keybind_remove_if_exist m k = cwc_hhmap_remove m k := by
  unfold keybind_remove_if_exist
  cases hget : cwc_hhmap_get m k with
  | none => exact (remove_none_id m k hget).symm
  | some info => rfl

lemma keyCount_insert_other (m : KeybindMap) (k : Nat) (v : cwc_keybind_info)
    (k' : Nat) (hne : k ≠ k') :
    keyCount (cwc_hhmap_insert m k v) k' = keyCount m k' := by
  induction m with
  | nil => simp [cwc_hhmap_insert, keyCount, hne]
  | cons e rest ih =>
    rw [cwc_hhmap_insert]
    split
    · rename_i he
      rw [keyCount_cons, keyCount_cons, if_neg hne, if_neg (he ▸ hne)]
    · rw [keyCount_cons, keyCount_cons, ih]

lemma keyCount_insert_self_of_zero (m : KeybindMap) (k : Nat)
    (v : cwc_keybind_info) (h : keyCount m k = 0) :
    keyCount (cwc_hhmap_insert m k v) k = 1 := by
  induction m with
  | nil => simp [cwc_hhmap_insert, keyCount]
  | cons e rest ih =>
    rw [keyCount_cons] at h
    have he : e.1 ≠ k := by
      intro hcontra
      rw [if_pos hcontra] at h
      omega
    rw [if_neg he] at h
    rw [cwc_hhmap_insert, if_neg he, keyCount_cons, if_neg he]
    simpa using ih (by omega)

lemma filter_insert_of_zero (m : KeybindMap) (k : Nat) (v : cwc_keybind_info)
    (h : keyCount m k = 0) :
    List.filter (fun e => e.1 = k) (cwc_hhmap_insert m k v) = [(k, v)] := by
  induction m with
  | nil => simp [cwc_hhmap_insert]
  | cons e rest ih =>
    rw [keyCount_cons] at h
    have he : e.1 ≠ k := by
      intro hcontra
      rw [if_pos hcontra] at h
      omega
    rw [if_neg he] at h
    rw [cwc_hhmap_insert, if_neg he, List.filter_cons, if_neg (by simpa using he)]
    simpa using ih (by omega)

lemma kbStep_preserves (m : KeybindMap) (op : KbOp)
    (h : ∀ k, keyCount m k ≤ 1) : ∀ k, keyCount (kbStep m op) k ≤ 1 := by
  cases op with
  | register mods key info =>
    intro k'
    rw [kbStep, keybind_register, remove_if_exist_eq]
    by_cases hk : keybind_generate_key mods key = k'
    · subst hk
      rw [keyCount_insert_self_of_zero _ _ _
        (keyCount_remove_eq_zero _ _ (h _))]
    · rw [keyCount_insert_other _ _ _ _ hk]
      exact le_trans (keyCount_remove_le _ _ _) (h k')
  | remove mods key =>
    intro k'
    rw [kbStep, remove_if_exist_eq]
    exact le_trans (keyCount_remove_le _ _ _) (h k')
  | clear =>
    intro k'
    simp [kbStep, keyCount]

lemma kbFold_preserves (ops : List KbOp) :
    ∀ m : KeybindMap, (∀ k, keyCount m k ≤ 1) →
      ∀ k, keyCount (ops.foldl kbStep m) k ≤ 1 := by
  induction ops with
  | nil => intro m h k; simpa using h k
  | cons op rest ih =>
    intro m h k
    exact ih (kbStep m op) (kbStep_preserves m op h) k

/-- Claim C10: registering a keybinding removes any binding stored under the
same (modifier mask, key) pair before inserting, so after any sequence of
register/remove/clear operations the map holds at most one binding per
generated key, and after a register the bindings under the registered key
are exactly the new one. -/
theorem keybind_register_replaces :
    (∀ (ops : List KbOp) (k : Nat),
      keyCount (ops.foldl kbStep []) k ≤ 1)
    ∧ (∀ (m : KeybindMap) (modifiers key : Nat) (info : cwc_keybind_info),
        (∀ k, keyCount m k ≤ 1) →
        List.filter (fun e => e.1 = keybind_generate_key modifiers key)
          (keybind_register m modifiers key info)
          = [(keybind_generate_key modifiers key, info)]) := by
  constructor
  · intro ops k
    exact kbFold_preserves ops [] (fun k => by simp [keyCount]) k
  · intro m modifiers key info h
    rw [keybind_register, remove_if_exist_eq]
    exact filter_insert_of_zero _ _ _ (keyCount_remove_eq_zero _ _ (h _))

/-- Witness for C10: registering twice under the same pair leaves one
binding. -/
theorem keybind_register_replaces_witness :
    List.filter (fun e => e.1 = keybind_generate_key 4 65)
      (keybind_register [(keybind_generate_key 4 65, ⟨some 1, none⟩)] 4 65
        ⟨some 2, none⟩)
      = [(keybind_generate_key 4 65, ⟨some 2, none⟩)] :=
  keybind_register_replaces.2 [(keybind_generate_key 4 65, ⟨some 1, none⟩)]
    4 65 ⟨some 2, none⟩
    (fun k => by by_cases h : keybind_generate_key 4 65 = k <;>
      simp [keyCount, List.filter_cons, h])

/-- Claim C5: while the session lock is engaged no keybinding callback runs
(press or release); when unlocked, a press runs the matching binding's
`on_press` callback and is forwarded to the focused client iff no binding
matched; a release is always forwarded, even when a release binding was
dispatched. -/
theorem kbd_dispatch_lock_and_forwarding :
    (∀ (m : KeybindMap) (modifiers key : Nat) (pressed : Bool),
      (on_kbd_key true m modifiers key pressed).1 = [])
    ∧ (∀ (m : KeybindMap) (modifiers key : Nat),
        cwc_hhmap_get m (keybind_generate_key modifiers key) = none →
        on_kbd_key false m modifiers key true = ([], true))
    ∧ (∀ (m : KeybindMap) (modifiers key : Nat) (info : cwc_keybind_info),
        cwc_hhmap_get m (keybind_generate_key modifiers key) = some info →
        on_kbd_key false m modifiers key true
          = (info.luaref_press.toList, false))
    ∧ (∀ (locked : Bool) (m : KeybindMap) (modifiers key : Nat),
        (on_kbd_key locked m modifiers key false).2 = true) := by
  refine ⟨?_, ?_, ?_, ?_⟩
  · intro m modifiers key pressed
    cases pressed <;> simp [on_kbd_key]
  · intro m modifiers key h
    simp [on_kbd_key, keybind_execute, h]
  · intro m modifiers key info h
    simp [on_kbd_key, keybind_execute, h]
  · intro locked m modifiers key
    simp [on_kbd_key]

/-- Witness for C5 at a one-binding map. -/
theorem kbd_dispatch_lock_and_forwarding_witness :
    on_kbd_key false [(keybind_generate_key 0 65, ⟨some 1, none⟩)] 0 65 true
      = ([1], false)
    ∧ on_kbd_key false [] 0 65 true = ([], true) :=
  ⟨kbd_dispatch_lock_and_forwarding.2.2.1
      [(keybind_generate_key 0 65, ⟨some 1, none⟩)] 0 65 ⟨some 1, none⟩ (by decide),
   kbd_dispatch_lock_and_forwarding.2.1 [] 0 65 (by decide)⟩

/-- Claim C6 counterexample: at normalized coordinates (0, 0.5) — e.g. the
pointer at surface point (100, 150) of a 200x200 geometry box — the claim's
rule gives the single edge BOTTOM (|nx| ≤ 0.3, |ny| = 0.5 ∈ (0.4, 1]), but
the code requires `ny ≥ 0.6` for BOTTOM and falls through to the corner
check, returning BOTTOM|RIGHT. -/
theorem edge_inference_counterexample :
    decide_which_edge_to_resize 100 150 ⟨0, 0, 200, 200⟩
      = (WLR_EDGE_BOTTOM ||| WLR_EDGE_RIGHT)
    ∧ surface_coord_to_normdevice_coord ⟨0, 0, 200, 200⟩ 100 150
      = ((0 : ℚ), (1/2 : ℚ))
    ∧ claimC6_edge_rule 0 (1/2) = WLR_EDGE_BOTTOM
    ∧ (WLR_EDGE_BOTTOM ||| WLR_EDGE_RIGHT) ≠ WLR_EDGE_BOTTOM := by
  have hndc : surface_coord_to_normdevice_coord ⟨0, 0, 200, 200⟩ 100 150
      = ((0 : ℚ), (1/2 : ℚ)) := by
    unfold surface_coord_to_normdevice_coord
    norm_num
  have h05 : |(1/2 : ℚ)| = 1/2 := abs_of_nonneg (by norm_num)
  refine ⟨?_, hndc, ?_, by decide⟩
  · unfold decide_which_edge_to_resize
    rw [hndc]
    unfold decide_edges edgeCorner
    norm_num
    decide
  · unfold claimC6_edge_rule
    rw [abs_zero, h05]
    norm_num

/-- Claim C6 (amended): with `edges == 0` the edges come from the
normalized-device coordinates, and the code's rule is: TOP when |nx| ≤ 0.3
and ny ≤ -0.4; BOTTOM when |nx| ≤ 0.3 and ny ≥ 0.6; LEFT when |nx| > 0.3,
|ny| ≤ 0.3 and nx ≤ -0.4; RIGHT when |nx| > 0.3, |ny| ≤ 0.3 and nx ≥ 0.6;
otherwise a corner pair with the -0.05 thresholds.  A nonzero `edges`
argument is passed through unchanged. -/
theorem edge_inference_amended :
    (∀ nx ny : ℚ, decide_edges nx ny = amendedC6_edge_rule nx ny)
    ∧ (∀ (sx sy : ℚ) (geo : WlrBox),
        start_interactive_resize_edges 0 sx sy geo
          = decide_which_edge_to_resize sx sy geo)
    ∧ (∀ (edges : Nat) (sx sy : ℚ) (geo : WlrBox), edges ≠ 0 →
        start_interactive_resize_edges edges sx sy geo = edges) := by
  refine ⟨?_, ?_, ?_⟩
  · intro nx ny
    have hxa : |nx| ≤ 3/10 ↔ (nx ≥ -(3/10) ∧ nx ≤ 3/10) := by
      rw [abs_le]
    have hya : |ny| ≤ 3/10 ↔ (ny ≥ -(3/10) ∧ ny ≤ 3/10) := by
      rw [abs_le]
    have hxb : 3/10 < |nx| ↔ ¬(nx ≥ -(3/10) ∧ nx ≤ 3/10) := by
      rw [← hxa, lt_iff_not_le]
    unfold decide_edges amendedC6_edge_rule edgeCorner
    simp only [hxa, hya, hxb]
    by_cases hA : (nx ≥ -(3/10) ∧ nx ≤ 3/10) <;>
      by_cases hB : ny ≤ -(4/10) <;>
      by_cases hC : ny ≥ 6/10 <;>
      by_cases hA2 : (ny ≥ -(3/10) ∧ ny ≤ 3/10) <;>
      by_cases hD : nx ≤ -(4/10) <;>
      by_cases hE : nx ≥ 6/10 <;>
      simp [hA, hB, hC, hA2, hD, hE]
  · intro sx sy geo
    simp [start_interactive_resize_edges]
  · intro edges sx sy geo h
    simp [start_interactive_resize_edges, h]

/-- Witness for C6 (amended) pass-through at a nonzero edge argument. -/
theorem edge_inference_amended_witness :
    start_interactive_resize_edges 1 100 150 ⟨0, 0, 200, 200⟩ = 1 :=
  edge_inference_amended.2.2 1 100 150 ⟨0, 0, 200, 200⟩ (by decide)

/-- Witness for C3 at concrete inputs. -/
theorem fullscreen_maximized_mutually_exclusive_witness :
    contMutex ([ContOp.maximized true, ContOp.fullscreen true].foldl
      (fun s op => contStep op s) contInitState)
    ∧ stateHas (set_fullscreen_state 8 true) CONTAINER_STATE_MAXIMIZED = false
    ∧ stateHas (set_maximized_state 16 true) CONTAINER_STATE_FULLSCREEN = false :=
  ⟨fullscreen_maximized_mutually_exclusive.1 [ContOp.maximized true, ContOp.fullscreen true],
   fullscreen_maximized_mutually_exclusive.2.1 8 (by decide),
   fullscreen_maximized_mutually_exclusive.2.2 16 (by decide)⟩

end Cwc
